import Mathlib

/-
Verification of the Production_Backend user CRUD service.

The embedding translates, from the repository source:
  - the Sequelize user table layout (migrations/...-create-users-table, src/unnamed/part_001);
  - the user controller (controllers/userController.js, src/unnamed/part_008);
  - the Joi validation schemas (utils/userValidation.js, src/unnamed/part_006);
  - the validation middleware validateBody (docs/API_RESPONSES.md, src/unnamed/part_002)
    together with its validateParams / validateQuery siblings, whose messages are fixed
    by the test suite (src/unnamed/part_000);
  - the response helpers of utils/apiHelpers.js, whose status-code table is given in
    docs/API_RESPONSES.md (src/unnamed/part_002).

Request bodies are JSON objects, modelled as association lists of JSON values.
The SQL backend is modelled as a list of rows; SQL LIKE runs under the default
case-insensitive collation, modelled by lowercasing both sides.
-/

namespace UserApi

/-- JSON-style value appearing in request bodies and serialized responses. -/
inductive JVal where
  | jnull
  | jstr (s : String)
  | jnum (n : Int)
  | jbool (b : Bool)
deriving DecidableEq

/-- JSON object: an association list from keys to values. -/
abbrev JObj := List (String × JVal)

deriving instance DecidableEq for Except

/-- Row of the users table, fields as in the create-users-table migration
(src/unnamed/part_001): snake_case column names, integer autoincrement id. -/
structure UserRecord where
  id : Nat
  name : String
  email : String
  password : String
  role : String
  phone : Option String
  date_of_birth : Option String
  is_active : Bool
  last_login_at : Option Nat
  email_verified_at : Option Nat
  avatar_url : Option String
  is_deleted : Bool
  deleted_at : Option Nat
  created_at : Nat
  updated_at : Nat
deriving DecidableEq

/-- Column names of the users table, in migration order (src/unnamed/part_001). -/
def userAttrNames : List String :=
  ["id", "name", "email", "password", "role", "phone", "date_of_birth", "is_active",
   "last_login_at", "email_verified_at", "avatar_url", "is_deleted", "deleted_at",
   "created_at", "updated_at"]

/-- Value of one column of a row, as a JSON value. -/
def attrValue (u : UserRecord) : String → JVal
  | "id" => .jnum u.id
  | "name" => .jstr u.name
  | "email" => .jstr u.email
  | "password" => .jstr u.password
  | "role" => .jstr u.role
  | "phone" => match u.phone with | some s => .jstr s | none => .jnull
  | "date_of_birth" => match u.date_of_birth with | some s => .jstr s | none => .jnull
  | "is_active" => .jbool u.is_active
  | "last_login_at" => match u.last_login_at with | some t => .jnum t | none => .jnull
  | "email_verified_at" => match u.email_verified_at with | some t => .jnum t | none => .jnull
  | "avatar_url" => match u.avatar_url with | some s => .jstr s | none => .jnull
  | "is_deleted" => .jbool u.is_deleted
  | "deleted_at" => match u.deleted_at with | some t => .jnum t | none => .jnull
  | "created_at" => .jnum u.created_at
  | "updated_at" => .jnum u.updated_at
  | _ => .jnull

/-- Serialization of a row with an attribute exclusion list: the Sequelize
`attributes: exclude` option used by the controller queries. -/
def serializeUser (excl : List String) (u : UserRecord) : JObj :=
  (userAttrNames.filter (fun k => !excl.contains k)).map (fun k => (k, attrValue u k))

/-- Modelled from the spec: models/User.js is not under src. Per the spec,
password is "never serialized to clients" and create "returns the created record
without password", so toSafeJSON serializes every attribute except password. -/
def toSafeJSON (u : UserRecord) : JObj :=
  serializeUser ["password"] u

/-- Field-level validation error entry, shaped by validateBody
(src/unnamed/part_002): the path and message of one Joi error detail. -/
structure FieldError where
  field : String
  message : String
deriving DecidableEq

/-- Pagination block of meta, as built by getUsers (src/unnamed/part_008). -/
structure PaginationMeta where
  page : Int
  limit : Int
  total : Nat
  pages : Nat
  hasNext : Bool
  hasPrev : Bool
deriving DecidableEq

/-- Filters block of meta, echoing the applied query parameters. -/
structure FiltersMeta where
  search : Option String
  role : Option String
  sortBy : String
  sortOrder : String
deriving DecidableEq

/-- Meta object attached to the list response. -/
structure ListMeta where
  pagination : PaginationMeta
  filters : FiltersMeta
deriving DecidableEq

/-- Minimal summary of a deleted user, the object the delete controller places
under the deletedUser key of the response data. -/
structure DeletedUserSummary where
  id : Nat
  name : String
  email : String
deriving DecidableEq

/-- Data slot of a response: nothing, a serialized user object, a list of
serialized user objects, or the deletedUser summary wrapper. -/
inductive RespData where
  | noData
  | userObj (o : JObj)
  | userList (rows : List JObj)
  | deletedUser (d : DeletedUserSummary)
deriving DecidableEq

/-- Response envelope, as documented in docs/API_RESPONSES.md
(src/unnamed/part_002): success flag, message, data, status code, optional
meta, optional error list. The wall-clock timestamp field is not modelled. -/
structure ApiResponse where
  success : Bool
  message : String
  data : RespData
  statusCode : Nat
  meta : Option ListMeta
  errors : List FieldError
deriving DecidableEq

/-- Modelled from the spec: utils/apiHelpers.js is not under src; the status
codes and shapes follow the table in docs/API_RESPONSES.md. Generic 200. -/
def sendSuccessResponse (m : String) (d : RespData) (meta : Option ListMeta) : ApiResponse :=
  ⟨true, m, d, 200, meta, []⟩

/-- Created response, 201. -/
def sendCreatedResponse (m : String) (d : RespData) : ApiResponse :=
  ⟨true, m, d, 201, none, []⟩

/-- Not-found response, 404. -/
def sendNotFoundResponse (m : String) : ApiResponse :=
  ⟨false, m, .noData, 404, none, []⟩

/-- Bad-request response, 400. -/
def sendBadRequestResponse (m : String) (errs : List FieldError) : ApiResponse :=
  ⟨false, m, .noData, 400, none, errs⟩

/-- Validation-error response, 422. -/
def sendValidationErrorResponse (m : String) (errs : List FieldError) : ApiResponse :=
  ⟨false, m, .noData, 422, none, errs⟩

/-- ASCII lowercasing of one character, the effect of the JS toLowerCase call
in getUsers and of comparing under the case-insensitive collation. -/
def lowerChar (c : Char) : Char :=
  if 65 ≤ c.toNat ∧ c.toNat ≤ 90 then Char.ofNat (c.toNat + 32) else c

/-- Lowercased character list of a string. -/
def lcList (s : String) : List Char :=
  s.toList.map lowerChar

/-- SQL LIKE pattern matching: percent matches any run of characters,
underscore matches exactly one character, and every other pattern character
matches itself. The LIKE escape character is treated literally here, since its
behaviour before a non-wildcard is dialect-defined; the search theorems are
scoped to terms without it. -/
def likeMatch : List Char → List Char → Bool
  | [], t => t.isEmpty
  | p :: ps, t =>
      if p = '%' then
        t.tails.any (fun suf => likeMatch ps suf)
      else
        match t with
        | [] => false
        | d :: ts => (p = '_' || p = d) && likeMatch ps ts

/-- SQL LIKE under the default case-insensitive collation: the pattern and the
column value are compared lowercased. -/
def likeCI (hay : String) (pat : List Char) : Bool :=
  likeMatch (pat.map lowerChar) (hay.toList.map lowerChar)

/-- Case-insensitive substring relation between plain strings; this is the
reading of the spec sentence "case-insensitive substring" over name or email. -/
def ciSubstring (hay needle : String) : Prop :=
  lcList needle <:+: lcList hay

instance (hay needle : String) : Decidable (ciSubstring hay needle) := by
  unfold ciSubstring; infer_instance

/-- Validated list query, the fields of req.query after the query schema
(src/unnamed/part_006) has applied conversion and defaults. -/
structure ValidatedQuery where
  page : Int
  limit : Int
  search : Option String
  role : Option String
  sortBy : String
  sortOrder : String
deriving DecidableEq

/-- Search condition of getUsers (src/unnamed/part_008): name LIKE or email
LIKE against the lowercased search term wrapped in percent wildcards. -/
def searchCond (term : String) (u : UserRecord) : Bool :=
  likeCI u.name ('%' :: lcList term ++ ['%']) ||
    likeCI u.email ('%' :: lcList term ++ ['%'])

/-- Where-conditions of getUsers: is_deleted false, then the optional search
disjunction, then the optional exact role match. -/
def userWhere (q : ValidatedQuery) (u : UserRecord) : Bool :=
  !u.is_deleted &&
    (match q.search with
     | none => true
     | some t => searchCond t u) &&
    (match q.role with
     | none => true
     | some r => decide (u.role = r))

/-- Column-name mapping applied to sortBy in getUsers. -/
def columnMapping (sortBy : String) : String :=
  if sortBy = "createdAt" then "created_at"
  else if sortBy = "updatedAt" then "updated_at"
  else if sortBy = "deletedAt" then "deleted_at"
  else sortBy

/-- Lexicographic comparison of character lists by code point. -/
def lexLe : List Char → List Char → Bool
  | [], _ => true
  | _ :: _, [] => false
  | c :: cs, d :: ds => if c = d then lexLe cs ds else decide (c < d)

/-- Row comparison for one column in ascending direction. -/
def colLe (col : String) (u v : UserRecord) : Bool :=
  if col = "name" then lexLe u.name.toList v.name.toList
  else if col = "email" then lexLe u.email.toList v.email.toList
  else if col = "updated_at" then decide (u.updated_at ≤ v.updated_at)
  else decide (u.created_at ≤ v.created_at)

/-- Row ordering for the order array built by getUsers: the mapped column,
descending when sortOrder is desc. -/
def orderLe (col ord : String) (u v : UserRecord) : Bool :=
  if ord = "desc" then colLe col v u else colLe col u v

/-- Math.ceil of a natural division, as computed by getUsers for the page
count. -/
def jsCeilDiv (a b : Nat) : Nat :=
  (a + b - 1) / b

/-- Result rows of findAndCountAll in getUsers: filter by the where-conditions,
order, then apply offset and limit. -/
def getUsersRows (q : ValidatedQuery) (store : List UserRecord) : List UserRecord :=
  let filtered := store.filter (userWhere q)
  let sorted := filtered.insertionSort
    (fun u v => orderLe (columnMapping q.sortBy) q.sortOrder u v = true)
  (sorted.drop ((q.page - 1) * q.limit).toNat).take q.limit.toNat

/-- Count of findAndCountAll: the number of rows matching the where-conditions. -/
def getUsersCount (q : ValidatedQuery) (store : List UserRecord) : Nat :=
  (store.filter (userWhere q)).length

/-- Controller getUsers (src/unnamed/part_008): paginated, filtered, sorted
rows without password, plus pagination and filter meta. -/
def getUsers (q : ValidatedQuery) (store : List UserRecord) : ApiResponse :=
  let count := getUsersCount q store
  let rows := getUsersRows q store
  let pages := jsCeilDiv count q.limit.toNat
  let meta : ListMeta :=
    ⟨⟨q.page, q.limit, count, pages, decide (q.page < (pages : Int)), decide (1 < q.page)⟩,
     ⟨q.search, q.role, q.sortBy, q.sortOrder⟩⟩
  sendSuccessResponse "Users retrieved successfully"
    (.userList (rows.map (serializeUser ["password"]))) (some meta)

/-- Value of JS parseInt on an all-digit string, as applied to the validated
id parameter. -/
def digitsToNat : List Char → Nat → Nat
  | [], acc => acc
  | c :: cs, acc => digitsToNat cs (acc * 10 + (c.toNat - 48))

/-- Integer id parsed from the id route parameter. -/
def parseIntNat (s : String) : Nat :=
  digitsToNat s.toList 0

/-- Lookup predicate used by getUser, updateUser and deleteUser: matching id
and not soft-deleted. -/
def idAlivePred (pid : Nat) (v : UserRecord) : Bool :=
  decide (v.id = pid) && !v.is_deleted

/-- Controller getUser (src/unnamed/part_008): findOne by id and is_deleted
false with password excluded, 404 when absent. -/
def getUser (id : String) (store : List UserRecord) : ApiResponse :=
  match store.find? (idAlivePred (parseIntNat id)) with
  | none => sendNotFoundResponse "User not found"
  | some u =>
      sendSuccessResponse "User retrieved successfully"
        (.userObj (serializeUser ["password"] u)) none

/-- String value found under a key of a JSON object, mirroring a JS property
read that expects a string (undefined or a non-string read yields none). -/
def lookupStr (b : JObj) (k : String) : Option String :=
  match List.lookup k b with
  | some (.jstr s) => some s
  | _ => none

/-- Next autoincrement id of the users table. -/
def nextId (store : List UserRecord) : Nat :=
  store.foldr (fun u acc => max u.id acc) 0 + 1

/-- Controller createUser (src/unnamed/part_008): reject when a non-deleted
user already holds the email, otherwise insert a row built from the body with
default role user, phone and date_of_birth defaulted to null, is_active true,
and answer 201 with the safe serialization. The controller reads the body key
date_of_birth, while the create schema emits dateOfBirth. -/
def createUser (body : JObj) (store : List UserRecord) (now : Nat) :
    ApiResponse × List UserRecord :=
  let email := (lookupStr body "email").getD ""
  if store.any (fun u => decide (u.email = email) && !u.is_deleted) then
    (sendBadRequestResponse "User with this email already exists" [], store)
  else
    let newUser : UserRecord :=
      { id := nextId store
        name := (lookupStr body "name").getD ""
        email := email
        password := (lookupStr body "password").getD ""
        role := (lookupStr body "role").getD "user"
        phone := lookupStr body "phone"
        date_of_birth := lookupStr body "date_of_birth"
        is_active := true
        last_login_at := none
        email_verified_at := none
        avatar_url := none
        is_deleted := false
        deleted_at := none
        created_at := now
        updated_at := now }
    (sendCreatedResponse "User created successfully" (.userObj (toSafeJSON newUser)),
     store ++ [newUser])

/-- Sequelize row update: each attribute of the users table present in the
patch object is assigned, other keys are ignored, and the updated_at timestamp
is bumped. -/
def applyUpdate (u : UserRecord) (b : JObj) (now : Nat) : UserRecord :=
  { u with
    name := (lookupStr b "name").getD u.name
    email := (lookupStr b "email").getD u.email
    password := (lookupStr b "password").getD u.password
    role := (lookupStr b "role").getD u.role
    phone := match List.lookup "phone" b with
      | some (.jstr s) => some s
      | _ => u.phone
    date_of_birth := match List.lookup "date_of_birth" b with
      | some (.jstr s) => some s
      | _ => u.date_of_birth
    is_active := match List.lookup "is_active" b with
      | some (.jbool x) => x
      | _ => u.is_active
    is_deleted := match List.lookup "is_deleted" b with
      | some (.jbool x) => x
      | _ => u.is_deleted
    deleted_at := match List.lookup "deleted_at" b with
      | some (.jnum t) => some t.toNat
      | _ => u.deleted_at
    last_login_at := match List.lookup "last_login_at" b with
      | some (.jnum t) => some t.toNat
      | _ => u.last_login_at
    updated_at := now }

/-- In-place mutation of the first row matching a predicate, the effect of
calling update on the instance returned by findOne. -/
def replaceFirst (p : UserRecord → Bool) (f : UserRecord → UserRecord) :
    List UserRecord → List UserRecord
  | [] => []
  | x :: xs => if p x then f x :: xs else x :: replaceFirst p f xs

/-- Controller updateUser (src/unnamed/part_008): find the non-deleted target,
re-check email uniqueness only when the body carries an email different from
the current one, apply the patch, and answer with the refreshed row without
password. -/
def updateUser (id : String) (body : JObj) (store : List UserRecord) (now : Nat) :
    ApiResponse × List UserRecord :=
  let pid := parseIntNat id
  match store.find? (idAlivePred pid) with
  | none => (sendNotFoundResponse "User not found", store)
  | some u =>
      let emailConflict :=
        match lookupStr body "email" with
        | some e =>
            if e ≠ u.email then
              store.any (fun v =>
                decide (v.email = e) && decide (v.id ≠ pid) && !v.is_deleted)
            else false
        | none => false
      if emailConflict then
        (sendBadRequestResponse "Email already exists" [], store)
      else
        (sendSuccessResponse "User updated successfully"
          (.userObj (serializeUser ["password"] (applyUpdate u body now))) none,
         replaceFirst (idAlivePred pid) (fun v => applyUpdate v body now) store)

/-- Patch written by the delete controller: soft-delete flag, deletion
timestamp, deactivation. -/
def softDeletePatch (now : Nat) : JObj :=
  [("is_deleted", .jbool true), ("deleted_at", .jnum now), ("is_active", .jbool false)]

/-- Controller deleteUser (src/unnamed/part_008): find the non-deleted target,
reject admin targets, otherwise soft-delete and answer with the deletedUser
summary. -/
def deleteUser (id : String) (store : List UserRecord) (now : Nat) :
    ApiResponse × List UserRecord :=
  let pid := parseIntNat id
  match store.find? (idAlivePred pid) with
  | none => (sendNotFoundResponse "User not found", store)
  | some u =>
      if u.role = "admin" then
        (sendBadRequestResponse "Cannot delete admin users" [], store)
      else
        (sendSuccessResponse "User deleted successfully"
          (.deletedUser ⟨u.id, u.name, u.email⟩) none,
         replaceFirst (idAlivePred pid)
           (fun v => applyUpdate v (softDeletePatch now) now) store)

/-- Raw query string parameters of a list request, before validation. -/
structure RawQuery where
  page : Option String
  limit : Option String
  search : Option String
  role : Option String
  sortBy : Option String
  sortOrder : Option String
deriving DecidableEq

/-- Joi number conversion of a query-string value: an optionally signed run of
digits; anything else fails the number base check. -/
def parseJoiInt? (s : String) : Option Int :=
  match s.toList with
  | [] => none
  | '-' :: ds =>
      if !ds.isEmpty && ds.all Char.isDigit then some (-(digitsToNat ds 0 : Int)) else none
  | ds =>
      if ds.all Char.isDigit then some (digitsToNat ds 0 : Int) else none

/-- Page rule of the query schema (src/unnamed/part_006): integer, min 1,
default 1. -/
def validatePage (raw : Option String) : Except FieldError Int :=
  match raw with
  | none => .ok 1
  | some s =>
      match parseJoiInt? s with
      | none => .error ⟨"page", "Page must be a number"⟩
      | some n => if n < 1 then .error ⟨"page", "Page must be at least 1"⟩ else .ok n

/-- Limit rule of the query schema: integer, min 1, max 100, default 10. -/
def validateLimit (raw : Option String) : Except FieldError Int :=
  match raw with
  | none => .ok 10
  | some s =>
      match parseJoiInt? s with
      | none => .error ⟨"limit", "Limit must be a number"⟩
      | some n =>
          if n < 1 then .error ⟨"limit", "Limit must be at least 1"⟩
          else if 100 < n then .error ⟨"limit", "Limit must be at most 100"⟩
          else .ok n

/-- Search rule of the query schema: optional string of length 1 to 100. -/
def validateSearch (raw : Option String) : Except FieldError (Option String) :=
  match raw with
  | none => .ok none
  | some s =>
      if s.toList.length < 1 then
        .error ⟨"search", "Search term must be at least 1 character"⟩
      else if 100 < s.toList.length then
        .error ⟨"search", "Search term must be less than 100 characters"⟩
      else .ok (some s)

/-- Role rule of the query schema: optional, one of the three role values. -/
def validateRoleQ (raw : Option String) : Except FieldError (Option String) :=
  match raw with
  | none => .ok none
  | some r =>
      if r = "user" ∨ r = "admin" ∨ r = "moderator" then .ok (some r)
      else .error ⟨"role", "Role must be one of: user, admin, moderator"⟩

/-- SortBy rule of the query schema: one of four column names, default
createdAt. -/
def validateSortBy (raw : Option String) : Except FieldError String :=
  match raw with
  | none => .ok "createdAt"
  | some s =>
      if s = "name" ∨ s = "email" ∨ s = "createdAt" ∨ s = "updatedAt" then .ok s
      else .error ⟨"sortBy", "Sort field must be one of: name, email, createdAt, updatedAt"⟩

/-- SortOrder rule of the query schema: asc or desc, default desc. -/
def validateSortOrder (raw : Option String) : Except FieldError String :=
  match raw with
  | none => .ok "desc"
  | some s =>
      if s = "asc" ∨ s = "desc" then .ok s
      else .error ⟨"sortOrder", "Sort order must be either asc or desc"⟩

/-- Error list of one field check. -/
def errsOf {α : Type} : Except FieldError α → List FieldError
  | .error e => [e]
  | .ok _ => []

/-- Validation of the whole list query against userQuerySchema
(src/unnamed/part_006) with abortEarly false: all field errors are collected. -/
def userQuerySchemaValidate (raw : RawQuery) : Except (List FieldError) ValidatedQuery :=
  match validatePage raw.page, validateLimit raw.limit, validateSearch raw.search,
      validateRoleQ raw.role, validateSortBy raw.sortBy, validateSortOrder raw.sortOrder with
  | .ok p, .ok l, .ok s, .ok r, .ok sb, .ok so => .ok ⟨p, l, s, r, sb, so⟩
  | rp, rl, rs, rr, rsb, rso =>
      .error (errsOf rp ++ errsOf rl ++ errsOf rs ++ errsOf rr ++ errsOf rsb ++ errsOf rso)

/-- Validation of the id route parameter against userParamsSchema
(src/unnamed/part_006): a non-empty run of digits. -/
def userParamsSchemaValidate (id : String) : Except (List FieldError) String :=
  if !id.toList.isEmpty && id.toList.all Char.isDigit then .ok id
  else .error [⟨"id", "User ID must be a valid number"⟩]

/-- Email format test of the Joi string email rule: one at-sign separating a
non-empty local part from a dotted domain of non-empty labels. -/
def isEmailB (s : String) : Bool :=
  match s.toList.splitOn '@' with
  | [l, d] =>
      !l.isEmpty && (d.splitOn '.').length ≥ 2 && (d.splitOn '.').all (fun p => !p.isEmpty)
  | _ => false

/-- Special characters of the password pattern. -/
def passSpecials : List Char :=
  ['@', '$', '!', '%', '*', '?', '&']

/-- Password pattern of the create schema: at least one lowercase, uppercase,
digit and special character, starting with a character of the allowed class. -/
def passOk (s : String) : Bool :=
  let cs := s.toList
  cs.any Char.isLower && cs.any Char.isUpper && cs.any Char.isDigit &&
    cs.any (fun c => passSpecials.contains c) &&
    (match cs with
     | [] => false
     | c :: _ => c.isAlphanum || passSpecials.contains c)

/-- Phone pattern of the schemas: optional leading plus, a first digit 1 to 9,
then up to 15 further digits. -/
def phoneOk (s : String) : Bool :=
  let cs := s.toList
  let t := match cs with
    | '+' :: rest => rest
    | _ => cs
  match t with
  | [] => false
  | c :: ds => decide ('1' ≤ c) && decide (c ≤ '9') && ds.all Char.isDigit && decide (ds.length ≤ 15)

/-- Name rule of the create schema: required string of 2 to 50 characters. -/
def checkNameReq (b : JObj) : Except FieldError (Option JVal) :=
  match List.lookup "name" b with
  | none => .error ⟨"name", "Name is required"⟩
  | some (.jstr s) =>
      if s.toList.isEmpty then .error ⟨"name", "Name is required"⟩
      else if s.toList.length < 2 then
        .error ⟨"name", "Name must be at least 2 characters long"⟩
      else if 50 < s.toList.length then
        .error ⟨"name", "Name must be less than 50 characters"⟩
      else .ok (some (.jstr s))
  | some _ => .error ⟨"name", "Name must be a string"⟩

/-- Email rule of the create schema: required, valid format. -/
def checkEmailReq (b : JObj) : Except FieldError (Option JVal) :=
  match List.lookup "email" b with
  | none => .error ⟨"email", "Email is required"⟩
  | some (.jstr s) =>
      if s.toList.isEmpty then .error ⟨"email", "Email is required"⟩
      else if !isEmailB s then .error ⟨"email", "Email must be a valid email address"⟩
      else .ok (some (.jstr s))
  | some _ => .error ⟨"email", "Email must be a string"⟩

/-- Password rule of the create schema: required, min 8, pattern. -/
def checkPasswordReq (b : JObj) : Except FieldError (Option JVal) :=
  match List.lookup "password" b with
  | none => .error ⟨"password", "Password is required"⟩
  | some (.jstr s) =>
      if s.toList.isEmpty then .error ⟨"password", "Password is required"⟩
      else if s.toList.length < 8 then
        .error ⟨"password", "Password must be at least 8 characters long"⟩
      else if !passOk s then
        .error ⟨"password",
          "Password must contain at least one uppercase letter, one lowercase letter, one number, and one special character"⟩
      else .ok (some (.jstr s))
  | some _ => .error ⟨"password", "Password must be a string"⟩

/-- Role rule of the create schema: optional with default user. -/
def checkRoleDef (b : JObj) : Except FieldError (Option JVal) :=
  match List.lookup "role" b with
  | none => .ok (some (.jstr "user"))
  | some (.jstr s) =>
      if s = "user" ∨ s = "admin" ∨ s = "moderator" then .ok (some (.jstr s))
      else .error ⟨"role", "Role must be one of: user, admin, moderator"⟩
  | some _ => .error ⟨"role", "Role must be one of: user, admin, moderator"⟩

/-- Phone rule of the schemas: optional, pattern-checked. -/
def checkPhoneOpt (b : JObj) : Except FieldError (Option JVal) :=
  match List.lookup "phone" b with
  | none => .ok none
  | some (.jstr s) =>
      if phoneOk s then .ok (some (.jstr s))
      else .error ⟨"phone", "Phone number must be a valid format"⟩
  | some _ => .error ⟨"phone", "Phone number must be a valid format"⟩

/-- Date-of-birth rule of the schemas: optional Joi date. Date parsing and the
max-now bound depend on the wall clock and are modelled as accepting any
non-empty string value. -/
def checkDobOpt (b : JObj) : Except FieldError (Option JVal) :=
  match List.lookup "dateOfBirth" b with
  | none => .ok none
  | some (.jstr s) =>
      if s.toList.isEmpty then .error ⟨"dateOfBirth", "Date of birth must be a valid date"⟩
      else .ok (some (.jstr s))
  | some _ => .error ⟨"dateOfBirth", "Date of birth must be a valid date"⟩

/-- Entry list contributed by one optional field of a sanitized body. -/
def optEntry (k : String) (v : Option JVal) : JObj :=
  match v with
  | some x => [(k, x)]
  | none => []

/-- Validation of a create body against createUserSchema (src/unnamed/part_006)
through validateBody (src/unnamed/part_002): abortEarly false collects field
errors, stripUnknown keeps only schema keys, defaults are applied, and the
sanitized object replaces req.body. -/
def createUserSchemaValidate (b : JObj) : Except (List FieldError) JObj :=
  match checkNameReq b, checkEmailReq b, checkPasswordReq b, checkRoleDef b,
      checkPhoneOpt b, checkDobOpt b with
  | .ok vn, .ok ve, .ok vp, .ok vr, .ok vph, .ok vd =>
      .ok (optEntry "name" vn ++ optEntry "email" ve ++ optEntry "password" vp ++
        optEntry "role" vr ++ optEntry "phone" vph ++ optEntry "dateOfBirth" vd)
  | rn, re, rp, rr, rph, rd =>
      .error (errsOf rn ++ errsOf re ++ errsOf rp ++ errsOf rr ++ errsOf rph ++ errsOf rd)

/-- Name rule of the update schema: optional string of 2 to 50 characters. -/
def checkNameOpt (b : JObj) : Except FieldError (Option JVal) :=
  match List.lookup "name" b with
  | none => .ok none
  | some (.jstr s) =>
      if s.toList.isEmpty then .error ⟨"name", "Name is not allowed to be empty"⟩
      else if s.toList.length < 2 then
        .error ⟨"name", "Name must be at least 2 characters long"⟩
      else if 50 < s.toList.length then
        .error ⟨"name", "Name must be less than 50 characters"⟩
      else .ok (some (.jstr s))
  | some _ => .error ⟨"name", "Name must be a string"⟩

/-- Email rule of the update schema: optional, valid format. -/
def checkEmailOpt (b : JObj) : Except FieldError (Option JVal) :=
  match List.lookup "email" b with
  | none => .ok none
  | some (.jstr s) =>
      if s.toList.isEmpty then .error ⟨"email", "Email is not allowed to be empty"⟩
      else if !isEmailB s then .error ⟨"email", "Email must be a valid email address"⟩
      else .ok (some (.jstr s))
  | some _ => .error ⟨"email", "Email must be a string"⟩

/-- IsActive rule of the update schema: optional boolean. -/
def checkIsActiveOpt (b : JObj) : Except FieldError (Option JVal) :=
  match List.lookup "isActive" b with
  | none => .ok none
  | some (.jbool x) => .ok (some (.jbool x))
  | some _ => .error ⟨"isActive", "isActive must be a boolean"⟩

/-- Validation of an update body against updateUserSchema
(src/unnamed/part_006) through validateBody: optional fields, unknown keys
stripped, and the object-min-1 rule requiring at least one remaining field. -/
def updateUserSchemaValidate (b : JObj) : Except (List FieldError) JObj :=
  match checkNameOpt b, checkEmailOpt b, checkPhoneOpt b, checkDobOpt b,
      checkIsActiveOpt b with
  | .ok vn, .ok ve, .ok vph, .ok vd, .ok va =>
      let sanitized := optEntry "name" vn ++ optEntry "email" ve ++
        optEntry "phone" vph ++ optEntry "dateOfBirth" vd ++ optEntry "isActive" va
      if sanitized.isEmpty then
        .error [⟨"", "At least one field must be provided for update"⟩]
      else .ok sanitized
  | rn, re, rph, rd, ra =>
      .error (errsOf rn ++ errsOf re ++ errsOf rph ++ errsOf rd ++ errsOf ra)

/-- Route GET /users: validateQuery then getUsers. Modelled from the spec:
middlewares/validation.js is not under src; validateQuery mirrors validateBody
(src/unnamed/part_002) and its message is fixed by the test suite
(src/unnamed/part_000). -/
def listRoute (raw : RawQuery) (store : List UserRecord) : ApiResponse :=
  match userQuerySchemaValidate raw with
  | .error errs => sendValidationErrorResponse "Query validation failed" errs
  | .ok q => getUsers q store

/-- Route GET /users/:id: validateParams then getUser. Modelled from the spec:
the validateParams message is fixed by the test suite (src/unnamed/part_000). -/
def getRoute (id : String) (store : List UserRecord) : ApiResponse :=
  match userParamsSchemaValidate id with
  | .error errs => sendValidationErrorResponse "Parameter validation failed" errs
  | .ok vid => getUser vid store

/-- Route POST /users: validateBody (src/unnamed/part_002) with
createUserSchema, then createUser on the sanitized body. -/
def createRoute (body : JObj) (store : List UserRecord) (now : Nat) :
    ApiResponse × List UserRecord :=
  match createUserSchemaValidate body with
  | .error errs => (sendValidationErrorResponse "Validation failed" errs, store)
  | .ok sanitized => createUser sanitized store now

/-- Route PUT /users/:id: validateParams, then validateBody with
updateUserSchema, then updateUser on the sanitized body. -/
def updateRoute (id : String) (body : JObj) (store : List UserRecord) (now : Nat) :
    ApiResponse × List UserRecord :=
  match userParamsSchemaValidate id with
  | .error errs => (sendValidationErrorResponse "Parameter validation failed" errs, store)
  | .ok vid =>
      match updateUserSchemaValidate body with
      | .error errs => (sendValidationErrorResponse "Validation failed" errs, store)
      | .ok sanitized => updateUser vid sanitized store now

/-- Route DELETE /users/:id: validateParams then deleteUser. -/
def deleteRoute (id : String) (store : List UserRecord) (now : Nat) :
    ApiResponse × List UserRecord :=
  match userParamsSchemaValidate id with
  | .error errs => (sendValidationErrorResponse "Parameter validation failed" errs, store)
  | .ok vid => deleteUser vid store now

/-- Sample non-admin user for concrete evaluations. -/
def aliceRec : UserRecord :=
  ⟨1, "Alice", "alice@example.com", "hash1", "user", none, none, true,
   none, none, none, false, none, 100, 100⟩

/-- Sample admin user for concrete evaluations. -/
def bobRec : UserRecord :=
  ⟨2, "Bob", "bob@example.com", "hash2", "admin", none, none, true,
   none, none, none, false, none, 50, 50⟩

/-- Sample two-user store. -/
def sampleStore : List UserRecord :=
  [aliceRec, bobRec]

/-- Raw query with every parameter absent. -/
def emptyRawQuery : RawQuery :=
  ⟨none, none, none, none, none, none⟩

/-- Default validated query: page 1, limit 10, no filters, createdAt desc. -/
def defaultQuery : ValidatedQuery :=
  ⟨1, 10, none, none, "createdAt", "desc"⟩

/-- Lowercasing is idempotent on characters. -/
theorem lowerChar_idem (c : Char) : lowerChar (lowerChar c) = lowerChar c := by
  unfold lowerChar
  by_cases h : 65 ≤ c.toNat ∧ c.toNat ≤ 90
  · have hv : (c.toNat + 32).isValidChar := Or.inl (by omega)
    have ht : (Char.ofNat (c.toNat + 32)).toNat = c.toNat + 32 := by
      rw [Char.ofNat, dif_pos hv]
      simp [Char.ofNatAux, Char.toNat, UInt32.toNat]
    simp only [if_pos h, ht]
    rw [if_neg (by omega)]
  · simp only [if_neg h]

/-- Lowercasing is idempotent on character lists. -/
theorem map_lowerChar_idem (l : List Char) :
    (l.map lowerChar).map lowerChar = l.map lowerChar := by
  rw [List.map_map]
  exact List.map_congr_left fun c _ => lowerChar_idem c

/-- Unfolding of the matcher at a leading percent: some suffix of the text
matches the rest of the pattern. -/
theorem likeMatch_pct (ps : List Char) (t : List Char) :
    likeMatch ('%' :: ps) t = t.tails.any (fun suf => likeMatch ps suf) := by
  simp [likeMatch]

/-- Unfolding of the matcher at a non-percent head: the empty text fails and a
non-empty text consumes one character, literally or via underscore. -/
theorem likeMatch_lit (c : Char) (hc : c ≠ '%') (ps : List Char) :
    (likeMatch (c :: ps) [] = false) ∧
    (∀ d ts, likeMatch (c :: ps) (d :: ts) = ((c = '_' || c = d) && likeMatch ps ts)) := by
  constructor
  · simp [likeMatch, hc]
  · intro d ts
    simp [likeMatch, hc]

/-- A wildcard-free pattern followed by a percent tests for a prefix. -/
theorem likeMatch_lit_pct (lit : List Char) (hl : ∀ c ∈ lit, c ≠ '%' ∧ c ≠ '_') :
    ∀ t, likeMatch (lit ++ ['%']) t = true ↔ lit <+: t := by
  induction lit with
  | nil =>
      intro t
      rw [List.nil_append, likeMatch_pct, List.any_eq_true]
      simp only [List.nil_prefix, iff_true]
      exact ⟨[], (List.mem_tails _ _).mpr List.nil_suffix, rfl⟩
  | cons c cs ih =>
      have hc := hl c (List.mem_cons_self c cs)
      have hcs : ∀ x ∈ cs, x ≠ '%' ∧ x ≠ '_' := fun x hx => hl x (List.mem_cons_of_mem c hx)
      intro t
      cases t with
      | nil =>
          rw [List.cons_append, (likeMatch_lit c hc.1 (cs ++ ['%'])).1]
          simp
      | cons d ts =>
          rw [List.cons_append, (likeMatch_lit c hc.1 (cs ++ ['%'])).2 d ts,
            List.cons_prefix_cons, Bool.and_eq_true, Bool.or_eq_true]
          simp only [decide_eq_true_eq]
          rw [ih hcs ts]
          constructor
          · rintro ⟨hcd | hcd, h2⟩
            · exact absurd hcd hc.2
            · exact ⟨hcd, h2⟩
          · rintro ⟨hcd, h2⟩
            exact ⟨Or.inr hcd, h2⟩

/-- A wildcard-free pattern wrapped in percents tests for an infix. -/
theorem likeMatch_substr (lit : List Char) (hl : ∀ c ∈ lit, c ≠ '%' ∧ c ≠ '_')
    (t : List Char) :
    likeMatch ('%' :: (lit ++ ['%'])) t = true ↔ lit <:+: t := by
  rw [likeMatch_pct, List.any_eq_true, List.infix_iff_prefix_suffix]
  constructor
  · rintro ⟨suf, hmem, hm⟩
    exact ⟨suf, (likeMatch_lit_pct lit hl suf).mp hm, (List.mem_tails _ _).mp hmem⟩
  · rintro ⟨suf, hp, hs⟩
    exact ⟨suf, (List.mem_tails _ _).mpr hs, (likeMatch_lit_pct lit hl suf).mpr hp⟩

/-- Lowercasing an uppercase basic-latin letter adds 32 to the code point. -/
theorem toNat_lowerChar_upper (c : Char) (h : 65 ≤ c.toNat ∧ c.toNat ≤ 90) :
    (lowerChar c).toNat = c.toNat + 32 := by
  have hv : (c.toNat + 32).isValidChar := Or.inl (by omega)
  unfold lowerChar
  rw [if_pos h, Char.ofNat, dif_pos hv]
  simp [Char.ofNatAux, Char.toNat, UInt32.toNat]

/-- Lowercasing maps no character onto a target below code point 97 it did not
already equal; in particular the LIKE wildcards are neither created nor
destroyed by the collation lowering. -/
theorem lowerChar_ne_low (c w : Char) (hw : w.toNat < 97) (hc : c ≠ w) :
    lowerChar c ≠ w := by
  by_cases h : 65 ≤ c.toNat ∧ c.toNat ≤ 90
  · have ht := toNat_lowerChar_upper c h
    intro he
    rw [he] at ht
    omega
  · unfold lowerChar
    rw [if_neg h]
    exact hc

/-- Lowercasing a lowercased string is the identity. -/
theorem lcList_map_lowerChar (s : String) : (lcList s).map lowerChar = lcList s :=
  map_lowerChar_idem s.toList

/-- On a percent-wrapped wildcard-free lowercased term, the LIKE condition is
exactly the case-insensitive substring relation. -/
theorem likeCI_substr (hay term : String)
    (hterm : ∀ c ∈ term.toList, c ≠ '%' ∧ c ≠ '_') :
    likeCI hay ('%' :: lcList term ++ ['%']) = true ↔ ciSubstring hay term := by
  have hlit : ∀ c ∈ lcList term, c ≠ '%' ∧ c ≠ '_' := by
    intro c hc
    obtain ⟨d, hd, rfl⟩ := List.mem_map.mp hc
    exact ⟨lowerChar_ne_low d '%' (by decide) (hterm d hd).1,
           lowerChar_ne_low d '_' (by decide) (hterm d hd).2⟩
  have hpc : lowerChar '%' = '%' := by decide
  unfold likeCI ciSubstring
  simp only [List.map_cons, List.map_append, List.map_nil, hpc, lcList_map_lowerChar]
  exact likeMatch_substr (lcList term) hlit (List.map lowerChar hay.toList)

/-- Serialization with password excluded contains no password key. -/
theorem serialize_no_password (u : UserRecord) :
    ∀ kv ∈ serializeUser ["password"] u, kv.1 ≠ "password" := by
  intro kv hkv
  simp only [serializeUser, List.mem_map, List.mem_filter] at hkv
  obtain ⟨k, ⟨_, hk⟩, rfl⟩ := hkv
  simpa using hk

/-- Decomposition of replaceFirst around the row located by find?. -/
theorem replaceFirst_of_find? {p : UserRecord → Bool} {f : UserRecord → UserRecord}
    {l : List UserRecord} {u : UserRecord} (h : l.find? p = some u) :
    ∃ l₁ l₂, l = l₁ ++ u :: l₂ ∧ replaceFirst p f l = l₁ ++ f u :: l₂ ∧
      ∀ v ∈ l₁, p v = false := by
  induction l with
  | nil => simp at h
  | cons x xs ih =>
      by_cases hx : p x
      · rw [List.find?_cons_of_pos _ hx] at h
        obtain rfl : x = u := by injection h
        exact ⟨[], xs, rfl, by simp [replaceFirst, hx], by simp⟩
      · rw [List.find?_cons_of_neg _ hx] at h
        obtain ⟨l₁, l₂, h1, h2, h3⟩ := ih h
        refine ⟨x :: l₁, l₂, by simp [h1], ?_, ?_⟩
        · simp only [replaceFirst, if_neg hx, h2, List.cons_append]
        · intro v hv
          rcases List.mem_cons.mp hv with rfl | hv2
          · exact eq_false_of_ne_true hx
          · exact h3 v hv2

/-- A pointwise-invariant projection is unchanged by replaceFirst. -/
theorem replaceFirst_map_eq {α : Type} {p : UserRecord → Bool}
    {f : UserRecord → UserRecord} (g : UserRecord → α)
    (hg : ∀ v, g (f v) = g v) (l : List UserRecord) :
    (replaceFirst p f l).map g = l.map g := by
  induction l with
  | nil => rfl
  | cons x xs ih =>
      by_cases hx : p x
      · simp [replaceFirst, hx, hg]
      · simp [replaceFirst, hx, ih]

/-- With distinct ids, find? by id-and-alive locates exactly the known row. -/
theorem find?_idAlive_eq {store : List UserRecord} {u : UserRecord} {pid : Nat}
    (hmem : u ∈ store) (hid : u.id = pid) (hdel : u.is_deleted = false)
    (hnodup : (store.map (fun v => v.id)).Nodup) :
    store.find? (idAlivePred pid) = some u := by
  have hpu : idAlivePred pid u = true := by
    simp [idAlivePred, hid, hdel]
  cases hf : store.find? (idAlivePred pid) with
  | none =>
      exact absurd hpu (by simpa using List.find?_eq_none.mp hf u hmem)
  | some w =>
      have hwmem : w ∈ store := List.mem_of_find?_eq_some hf
      have hpw : idAlivePred pid w = true := List.find?_some hf
      have hww : w.id = u.id := by
        simp only [idAlivePred, Bool.and_eq_true, decide_eq_true_eq] at hpw
        rw [hpw.1, hid]
      have : w = u := List.inj_on_of_nodup_map hnodup hwmem hmem hww
      rw [this]

/-- Lookup misses when no entry has the key. -/
theorem lookup_eq_none_of_keys {s : JObj} {k : String}
    (h : ∀ kv ∈ s, kv.1 ≠ k) : List.lookup k s = none := by
  induction s with
  | nil => rfl
  | cons kv rest ih =>
      have hk : kv.1 ≠ k := h kv (List.mem_cons_self kv rest)
      have hbeq : (k == kv.1) = false := beq_eq_false_iff_ne.mpr (Ne.symm hk)
      simp only [List.lookup, hbeq]
      exact ih fun e he => h e (List.mem_cons_of_mem kv he)

/-- Every entry of an optEntry list has the given key. -/
theorem mem_optEntry {k : String} {v : Option JVal} {kv : String × JVal}
    (h : kv ∈ optEntry k v) : kv.1 = k := by
  cases v with
  | none => simp [optEntry] at h
  | some x =>
      simp only [optEntry, List.mem_singleton] at h
      rw [h]

/-- A sanitized create body is a concatenation of schema-key entries. -/
theorem createSanitized_shape {b s : JObj} (h : createUserSchemaValidate b = .ok s) :
    ∃ vn ve vp vr vph vd,
      s = optEntry "name" vn ++ optEntry "email" ve ++ optEntry "password" vp ++
        optEntry "role" vr ++ optEntry "phone" vph ++ optEntry "dateOfBirth" vd := by
  unfold createUserSchemaValidate at h
  cases h1 : checkNameReq b <;> cases h2 : checkEmailReq b <;>
    cases h3 : checkPasswordReq b <;> cases h4 : checkRoleDef b <;>
    cases h5 : checkPhoneOpt b <;> cases h6 : checkDobOpt b <;>
    simp only [h1, h2, h3, h4, h5, h6] at h <;>
    first
      | exact Except.noConfusion h
      | exact ⟨_, _, _, _, _, _, (Except.ok.inj h).symm⟩

/-- A sanitized update body is a non-empty concatenation of schema-key
entries. -/
theorem updateSanitized_shape {b s : JObj} (h : updateUserSchemaValidate b = .ok s) :
    ∃ vn ve vph vd va,
      s = optEntry "name" vn ++ optEntry "email" ve ++ optEntry "phone" vph ++
        optEntry "dateOfBirth" vd ++ optEntry "isActive" va := by
  unfold updateUserSchemaValidate at h
  cases h1 : checkNameOpt b <;> cases h2 : checkEmailOpt b <;>
    cases h3 : checkPhoneOpt b <;> cases h4 : checkDobOpt b <;>
    cases h5 : checkIsActiveOpt b <;>
    simp only [h1, h2, h3, h4, h5] at h
  case ok.ok.ok.ok.ok =>
    split at h
    · exact Except.noConfusion h
    · exact ⟨_, _, _, _, _, (Except.ok.inj h).symm⟩
  all_goals exact Except.noConfusion h

/-- Keys of a sanitized update body are restricted to the update schema. -/
theorem updateSanitized_keys {b s : JObj} (h : updateUserSchemaValidate b = .ok s) :
    ∀ kv ∈ s, kv.1 = "name" ∨ kv.1 = "email" ∨ kv.1 = "phone" ∨
      kv.1 = "dateOfBirth" ∨ kv.1 = "isActive" := by
  obtain ⟨vn, ve, vph, vd, va, rfl⟩ := updateSanitized_shape h
  intro kv hkv
  simp only [List.mem_append] at hkv
  rcases hkv with ((((h1 | h2) | h3) | h4) | h5)
  · exact Or.inl (mem_optEntry h1)
  · exact Or.inr (Or.inl (mem_optEntry h2))
  · exact Or.inr (Or.inr (Or.inl (mem_optEntry h3)))
  · exact Or.inr (Or.inr (Or.inr (Or.inl (mem_optEntry h4))))
  · exact Or.inr (Or.inr (Or.inr (Or.inr (mem_optEntry h5))))

/-- Keys of a sanitized create body are restricted to the create schema. -/
theorem createSanitized_keys {b s : JObj} (h : createUserSchemaValidate b = .ok s) :
    ∀ kv ∈ s, kv.1 = "name" ∨ kv.1 = "email" ∨ kv.1 = "password" ∨
      kv.1 = "role" ∨ kv.1 = "phone" ∨ kv.1 = "dateOfBirth" := by
  obtain ⟨vn, ve, vp, vr, vph, vd, rfl⟩ := createSanitized_shape h
  intro kv hkv
  simp only [List.mem_append] at hkv
  rcases hkv with (((((h1 | h2) | h3) | h4) | h5) | h6)
  · exact Or.inl (mem_optEntry h1)
  · exact Or.inr (Or.inl (mem_optEntry h2))
  · exact Or.inr (Or.inr (Or.inl (mem_optEntry h3)))
  · exact Or.inr (Or.inr (Or.inr (Or.inl (mem_optEntry h4))))
  · exact Or.inr (Or.inr (Or.inr (Or.inr (Or.inl (mem_optEntry h5)))))
  · exact Or.inr (Or.inr (Or.inr (Or.inr (Or.inr (mem_optEntry h6)))))

/-- A sanitized create body carries no snake-case date_of_birth key. -/
theorem createSanitized_dob_none {b s : JObj} (h : createUserSchemaValidate b = .ok s) :
    List.lookup "date_of_birth" s = none := by
  refine lookup_eq_none_of_keys fun kv hkv => ?_
  rcases createSanitized_keys h kv hkv with h1 | h1 | h1 | h1 | h1 | h1 <;>
    simp [h1]

/-- A sanitized update body carries neither a role nor a password key. -/
theorem updateSanitized_no_role_password {b s : JObj}
    (h : updateUserSchemaValidate b = .ok s) :
    List.lookup "role" s = none ∧ List.lookup "password" s = none := by
  constructor <;>
    · refine lookup_eq_none_of_keys fun kv hkv => ?_
      rcases updateSanitized_keys h kv hkv with h1 | h1 | h1 | h1 | h1 <;>
        simp [h1]

/-- A validated query agrees componentwise with the field rules. -/
theorem queryValidate_components {raw : RawQuery} {q : ValidatedQuery}
    (h : userQuerySchemaValidate raw = .ok q) :
    validatePage raw.page = .ok q.page ∧ validateLimit raw.limit = .ok q.limit := by
  unfold userQuerySchemaValidate at h
  cases h1 : validatePage raw.page <;> cases h2 : validateLimit raw.limit <;>
    cases h3 : validateSearch raw.search <;> cases h4 : validateRoleQ raw.role <;>
    cases h5 : validateSortBy raw.sortBy <;> cases h6 : validateSortOrder raw.sortOrder <;>
    simp only [h1, h2, h3, h4, h5, h6] at h <;>
    first
      | exact Except.noConfusion h
      | (obtain rfl := Except.ok.inj h; exact ⟨rfl, rfl⟩)

/-- An over-limit value makes query validation fail with the max message. -/
theorem queryValidate_limit_max {raw : RawQuery} {s : String} {n : Int}
    (hraw : raw.limit = some s) (hp : parseJoiInt? s = some n) (hn : 100 < n) :
    ∃ errs, userQuerySchemaValidate raw = .error errs ∧
      (⟨"limit", "Limit must be at most 100"⟩ : FieldError) ∈ errs := by
  have hl : validateLimit raw.limit = .error ⟨"limit", "Limit must be at most 100"⟩ := by
    rw [hraw]
    simp only [validateLimit, hp]
    rw [if_neg (by omega), if_pos hn]
  unfold userQuerySchemaValidate
  cases h1 : validatePage raw.page <;> cases h3 : validateSearch raw.search <;>
    cases h4 : validateRoleQ raw.role <;> cases h5 : validateSortBy raw.sortBy <;>
    cases h6 : validateSortOrder raw.sortOrder <;>
    simp only [h1, hl, h3, h4, h5, h6] <;>
    exact ⟨_, rfl, by simp [errsOf]⟩

/-- Query validation never fails with an empty error list. -/
theorem queryValidate_error_ne_nil {raw : RawQuery} {errs : List FieldError}
    (h : userQuerySchemaValidate raw = .error errs) : errs ≠ [] := by
  unfold userQuerySchemaValidate at h
  cases h1 : validatePage raw.page <;> cases h2 : validateLimit raw.limit <;>
    cases h3 : validateSearch raw.search <;> cases h4 : validateRoleQ raw.role <;>
    cases h5 : validateSortBy raw.sortBy <;> cases h6 : validateSortOrder raw.sortOrder <;>
    simp only [h1, h2, h3, h4, h5, h6] at h <;>
    first
      | exact Except.noConfusion h
      | (obtain rfl := Except.error.inj h; simp [errsOf])

/-- Create-body validation never fails with an empty error list. -/
theorem createValidate_error_ne_nil {b : JObj} {errs : List FieldError}
    (h : createUserSchemaValidate b = .error errs) : errs ≠ [] := by
  unfold createUserSchemaValidate at h
  cases h1 : checkNameReq b <;> cases h2 : checkEmailReq b <;>
    cases h3 : checkPasswordReq b <;> cases h4 : checkRoleDef b <;>
    cases h5 : checkPhoneOpt b <;> cases h6 : checkDobOpt b <;>
    simp only [h1, h2, h3, h4, h5, h6] at h <;>
    first
      | exact Except.noConfusion h
      | (obtain rfl := Except.error.inj h; simp [errsOf])

/-- Update-body validation never fails with an empty error list. -/
theorem updateValidate_error_ne_nil {b : JObj} {errs : List FieldError}
    (h : updateUserSchemaValidate b = .error errs) : errs ≠ [] := by
  unfold updateUserSchemaValidate at h
  cases h1 : checkNameOpt b <;> cases h2 : checkEmailOpt b <;>
    cases h3 : checkPhoneOpt b <;> cases h4 : checkDobOpt b <;>
    cases h5 : checkIsActiveOpt b <;>
    simp only [h1, h2, h3, h4, h5] at h
  case ok.ok.ok.ok.ok =>
    split at h
    · obtain rfl := Except.error.inj h
      simp
    · exact Except.noConfusion h
  all_goals
    first
      | exact Except.noConfusion h
      | (obtain rfl := Except.error.inj h; simp [errsOf])

/-- Applying the soft-delete patch flips exactly the three written columns and
the update timestamp. -/
theorem applyUpdate_softDelete (u : UserRecord) (now : Nat) :
    applyUpdate u (softDeletePatch now) now =
      { u with
        is_deleted := true
        deleted_at := some now
        is_active := false
        updated_at := now } := by
  simp [applyUpdate, softDeletePatch, lookupStr, List.lookup]

/-- Row updates never change the id column. -/
theorem applyUpdate_id (u : UserRecord) (b : JObj) (now : Nat) :
    (applyUpdate u b now).id = u.id := rfl

/-- The JS ceiling of a division covers the dividend. -/
theorem le_jsCeilDiv_mul (a : Nat) {b : Nat} (hb : 0 < b) :
    a ≤ jsCeilDiv a b * b := by
  unfold jsCeilDiv
  have h1 := Nat.div_add_mod (a + b - 1) b
  have h2 := Nat.mod_lt (a + b - 1) hb
  set q := (a + b - 1) / b with hq
  set r := (a + b - 1) % b with hr
  have h3 : q * b = b * q := Nat.mul_comm _ _
  omega

/-- The JS ceiling of a division is the least cover. -/
theorem jsCeilDiv_le (a k : Nat) {b : Nat} (hb : 0 < b) (hk : a ≤ k * b) :
    jsCeilDiv a b ≤ k := by
  unfold jsCeilDiv
  rw [Nat.div_le_iff_le_mul_add_pred hb, Nat.mul_comm b k]
  omega

/-- C1: for every successful read operation (list, get-by-id, create, update)
the user object(s) in the response data contain no password field: list, get
and update serialize rows with the password attribute excluded, and create
returns the safe serialization of the new record. -/
theorem c1_read_responses_exclude_password :
    (∀ q store rows, (getUsers q store).data = .userList rows →
       ∀ row ∈ rows, ∀ kv ∈ row, kv.1 ≠ "password") ∧
    (∀ id store o, (getUser id store).data = .userObj o →
       ∀ kv ∈ o, kv.1 ≠ "password") ∧
    (∀ body store now o, ((createUser body store now).1).data = .userObj o →
       ∀ kv ∈ o, kv.1 ≠ "password") ∧
    (∀ id body store now o, ((updateUser id body store now).1).data = .userObj o →
       ∀ kv ∈ o, kv.1 ≠ "password") := by
  refine ⟨?_, ?_, ?_, ?_⟩
  · intro q store rows h row hrow kv hkv
    simp only [getUsers, sendSuccessResponse, RespData.userList.injEq] at h
    rw [← h] at hrow
    obtain ⟨u, _, rfl⟩ := List.mem_map.mp hrow
    exact serialize_no_password u kv hkv
  · intro id store o h kv hkv
    cases hf : store.find? (idAlivePred (parseIntNat id)) with
    | none => simp [getUser, hf, sendNotFoundResponse] at h
    | some u =>
        simp only [getUser, hf, sendSuccessResponse, RespData.userObj.injEq] at h
        rw [← h] at hkv
        exact serialize_no_password u kv hkv
  · intro body store now o h kv hkv
    by_cases hd : store.any
        (fun u => decide (u.email = (lookupStr body "email").getD "") && !u.is_deleted)
    · simp [createUser, hd, sendBadRequestResponse] at h
    · simp only [createUser, hd, Bool.false_eq_true, if_false, sendCreatedResponse,
        toSafeJSON, RespData.userObj.injEq] at h
      rw [← h] at hkv
      exact serialize_no_password _ kv hkv
  · intro id body store now o h kv hkv
    cases hf : store.find? (idAlivePred (parseIntNat id)) with
    | none => simp [updateUser, hf, sendNotFoundResponse] at h
    | some u =>
        simp only [updateUser, hf] at h
        split at h
        · simp [sendBadRequestResponse] at h
        · simp only [sendSuccessResponse, RespData.userObj.injEq] at h
          rw [← h] at hkv
          exact serialize_no_password _ kv hkv

/-- Witness for C1 at a concrete get-by-id response. -/
theorem c1_read_responses_exclude_password_witness :
    (getUser "1" sampleStore).data = .userObj (serializeUser ["password"] aliceRec) ∧
    ("name", JVal.jstr "Alice") ∈ serializeUser ["password"] aliceRec ∧
    ("name", JVal.jstr "Alice").1 ≠ "password" := by
  refine ⟨by decide, by decide, ?_⟩
  exact c1_read_responses_exclude_password.2.1 "1" sampleStore
    (serializeUser ["password"] aliceRec) (by decide)
    ("name", JVal.jstr "Alice") (by decide)

/-- C2: a create call whose email is already held by a non-deleted user is
rejected with the duplicate-email outcome (the Conflict case of the error
taxonomy, surfaced as 400 per the endpoint table) and persists no new record:
the stored user set is unchanged. -/
theorem c2_create_duplicate_email_conflict (body : JObj) (store : List UserRecord)
    (now : Nat) (e : String) (w : UserRecord)
    (hemail : lookupStr body "email" = some e)
    (hw : w ∈ store) (hwe : w.email = e) (hwd : w.is_deleted = false) :
    createUser body store now =
      (sendBadRequestResponse "User with this email already exists" [], store) ∧
    (createUser body store now).1.statusCode = 400 ∧
    (createUser body store now).1.success = false ∧
    (createUser body store now).2 = store := by
  have hmain : createUser body store now =
      (sendBadRequestResponse "User with this email already exists" [], store) := by
    unfold createUser
    rw [hemail]
    simp only [Option.getD_some]
    rw [if_pos (List.any_eq_true.mpr ⟨w, hw, by simp [hwe, hwd]⟩)]
  refine ⟨hmain, ?_, ?_, ?_⟩ <;> rw [hmain] <;> rfl

/-- Witness for C2: creating with the email of the stored admin user. -/
theorem c2_create_duplicate_email_conflict_witness :
    lookupStr [("email", JVal.jstr "bob@example.com")] "email" = some "bob@example.com" ∧
    bobRec ∈ sampleStore ∧ bobRec.email = "bob@example.com" ∧ bobRec.is_deleted = false ∧
    createUser [("email", JVal.jstr "bob@example.com")] sampleStore 7 =
      (sendBadRequestResponse "User with this email already exists" [], sampleStore) :=
  ⟨by decide, by decide, by decide, by decide,
   (c2_create_duplicate_email_conflict [("email", JVal.jstr "bob@example.com")] sampleStore 7
     "bob@example.com" bobRec (by decide) (by decide) (by decide) (by decide)).1⟩

/-- Search condition truth, for wildcard-free terms, is the case-insensitive
substring disjunction. -/
theorem searchCond_eq_true_iff (term : String) (u : UserRecord)
    (hterm : ∀ c ∈ term.toList, c ≠ '%' ∧ c ≠ '_') :
    searchCond term u = true ↔ (ciSubstring u.name term ∨ ciSubstring u.email term) := by
  simp only [searchCond, Bool.or_eq_true]
  rw [likeCI_substr u.name term hterm, likeCI_substr u.email term hterm]

/-- C3 counterexample: the underscore search term passes query validation, yet
the returned page contains a user although the term is not a case-insensitive
substring of either the name or the email — underscore is a LIKE wildcard
matching any single character, so the claim fails as stated. -/
theorem c3_search_counterexample :
    userQuerySchemaValidate { emptyRawQuery with search := some "_" } =
      .ok ⟨1, 10, some "_", none, "createdAt", "desc"⟩ ∧
    aliceRec ∈ getUsersRows (⟨1, 10, some "_", none, "createdAt", "desc"⟩ : ValidatedQuery)
      sampleStore ∧
    aliceRec.is_deleted = false ∧
    ¬ (ciSubstring aliceRec.name "_" ∨ ciSubstring aliceRec.email "_") := by
  decide

/-- C3 (amended to search terms free of the SQL LIKE metacharacters percent,
underscore and the escape backslash): on a list call with such a search term
and no role filter, every row of the returned page is a non-deleted user whose
name or email contains the term as a case-insensitive substring; conversely
every stored non-deleted user matching the term passes the where-filter; and
the matching relation depends only on the lowercased letters, hence neither
the case of the stored value nor that of the term affects membership. -/
theorem c3_search_case_insensitive (q : ValidatedQuery) (store : List UserRecord)
    (term : String) (hs : q.search = some term) (hr : q.role = none)
    (hterm : ∀ c ∈ term.toList, c ≠ '%' ∧ c ≠ '_' ∧ c ≠ '\\') :
    (∀ u ∈ getUsersRows q store,
       u.is_deleted = false ∧ (ciSubstring u.name term ∨ ciSubstring u.email term)) ∧
    (∀ u ∈ store, u.is_deleted = false →
       (ciSubstring u.name term ∨ ciSubstring u.email term) →
       u ∈ store.filter (userWhere q)) ∧
    (∀ hay hay2 n1 n2 : String, lcList hay = lcList hay2 → lcList n1 = lcList n2 →
       (ciSubstring hay n1 ↔ ciSubstring hay2 n2)) := by
  have hterm2 : ∀ c ∈ term.toList, c ≠ '%' ∧ c ≠ '_' :=
    fun c hc => ⟨(hterm c hc).1, (hterm c hc).2.1⟩
  have hwhere : ∀ u, userWhere q u = (!u.is_deleted && searchCond term u) := by
    intro u
    simp [userWhere, hs, hr]
  refine ⟨?_, ?_, ?_⟩
  · intro u hu
    simp only [getUsersRows] at hu
    have h1 : u ∈ (store.filter (userWhere q)).insertionSort
        (fun a b => orderLe (columnMapping q.sortBy) q.sortOrder a b = true) :=
      List.mem_of_mem_drop (List.mem_of_mem_take hu)
    have h2 : u ∈ store.filter (userWhere q) := (List.mem_insertionSort _).mp h1
    have h3 := (List.mem_filter.mp h2).2
    rw [hwhere, Bool.and_eq_true, Bool.not_eq_true'] at h3
    exact ⟨h3.1, (searchCond_eq_true_iff term u hterm2).mp h3.2⟩
  · intro u hu hdel hmatch
    refine List.mem_filter.mpr ⟨hu, ?_⟩
    rw [hwhere, Bool.and_eq_true, Bool.not_eq_true']
    exact ⟨hdel, (searchCond_eq_true_iff term u hterm2).mpr hmatch⟩
  · intro hay hay2 n1 n2 hh hn
    unfold ciSubstring
    rw [hh, hn]

/-- Witness for C3: a mixed-case term locates the lowercase-stored user. -/
theorem c3_search_case_insensitive_witness :
    aliceRec ∈ getUsersRows (⟨1, 10, some "ALiCE", none, "createdAt", "desc"⟩ : ValidatedQuery)
      sampleStore ∧
    aliceRec.is_deleted = false ∧
    (ciSubstring aliceRec.name "ALiCE" ∨ ciSubstring aliceRec.email "ALiCE") := by
  refine ⟨by decide, ?_⟩
  exact (c3_search_case_insensitive
    (⟨1, 10, some "ALiCE", none, "createdAt", "desc"⟩ : ValidatedQuery)
    sampleStore "ALiCE" rfl rfl (by decide)).1 aliceRec (by decide)

/-- C4: deleting a non-admin user succeeds with 200, a second delete of the
same id answers 404, the user disappears from get-by-id and list results, and
the row stays in storage with the soft-delete flag, deletion timestamp and
deactivation set. -/
theorem c4_soft_delete_twice (store : List UserRecord) (u : UserRecord) (idStr : String)
    (now now2 : Nat) (q : ValidatedQuery)
    (hmem : u ∈ store) (hdel : u.is_deleted = false) (hrole : u.role ≠ "admin")
    (hids : parseIntNat idStr = u.id)
    (hnodup : (store.map (fun v => v.id)).Nodup) :
    (deleteUser idStr store now).1.statusCode = 200 ∧
    (deleteUser idStr (deleteUser idStr store now).2 now2).1.statusCode = 404 ∧
    (getUser idStr (deleteUser idStr store now).2).statusCode = 404 ∧
    (∀ v ∈ getUsersRows q (deleteUser idStr store now).2, v.id ≠ u.id) ∧
    (∃ v ∈ (deleteUser idStr store now).2,
       v.id = u.id ∧ v.is_deleted = true ∧ v.deleted_at = some now ∧ v.is_active = false) := by
  have hfind : store.find? (idAlivePred (parseIntNat idStr)) = some u :=
    find?_idAlive_eq hmem hids.symm hdel hnodup
  obtain ⟨l₁, l₂, hsplit, hrepl, hl₁⟩ :=
    @replaceFirst_of_find? (idAlivePred (parseIntNat idStr))
      (fun v => applyUpdate v (softDeletePatch now) now) store u hfind
  have hres : deleteUser idStr store now =
      (sendSuccessResponse "User deleted successfully"
        (.deletedUser ⟨u.id, u.name, u.email⟩) none,
       l₁ ++ applyUpdate u (softDeletePatch now) now :: l₂) := by
    simp only [deleteUser, hfind]
    rw [if_neg hrole, hrepl]
  have hid2 : u.id ∉ l₂.map (fun v => v.id) := by
    rw [hsplit] at hnodup
    simp only [List.map_append, List.map_cons] at hnodup
    exact (List.nodup_cons.mp hnodup.of_append_right).1
  have hne2 : ∀ v ∈ l₂, v.id ≠ u.id := by
    intro v hv he
    exact hid2 (List.mem_map.mpr ⟨v, hv, he⟩)
  have hflags := applyUpdate_softDelete u now
  have hnone : (l₁ ++ applyUpdate u (softDeletePatch now) now :: l₂).find?
      (idAlivePred (parseIntNat idStr)) = none := by
    rw [List.find?_eq_none]
    intro v hv
    rcases List.mem_append.mp hv with hv1 | hv2
    · simp [hl₁ v hv1]
    · rcases List.mem_cons.mp hv2 with rfl | hv3
      · simp [idAlivePred, hflags]
      · simp [idAlivePred, hids, hne2 v hv3]
  refine ⟨by rw [hres]; rfl, ?_, ?_, ?_, ?_⟩
  · rw [hres]
    simp only [deleteUser, hnone]
    rfl
  · rw [hres]
    simp only [getUser, hnone]
    rfl
  · intro v hv
    rw [hres] at hv
    simp only [getUsersRows] at hv
    have h1 := List.mem_of_mem_drop (List.mem_of_mem_take hv)
    have h2 := (List.mem_insertionSort _).mp h1
    have h3 := List.mem_filter.mp h2
    have halive : v.is_deleted = false := by
      have := h3.2
      simp only [userWhere, Bool.and_eq_true, Bool.not_eq_true'] at this
      exact this.1.1
    rcases List.mem_append.mp h3.1 with hv1 | hv2
    · intro he
      have := hl₁ v hv1
      simp [idAlivePred, hids, he, halive] at this
    · rcases List.mem_cons.mp hv2 with rfl | hv3
      · rw [hflags] at halive
        simp at halive
      · exact hne2 v hv3
  · refine ⟨applyUpdate u (softDeletePatch now) now, ?_, ?_⟩
    · rw [hres]
      exact List.mem_append.mpr (Or.inr (List.mem_cons_self _ _))
    · rw [hflags]
      exact ⟨rfl, rfl, rfl, rfl⟩

/-- Witness for C4 at the concrete two-user store. -/
theorem c4_soft_delete_twice_witness :
    (deleteUser "1" sampleStore 7).1.statusCode = 200 ∧
    (deleteUser "1" (deleteUser "1" sampleStore 7).2 8).1.statusCode = 404 ∧
    (getUser "1" (deleteUser "1" sampleStore 7).2).statusCode = 404 ∧
    (∀ v ∈ getUsersRows defaultQuery (deleteUser "1" sampleStore 7).2, v.id ≠ aliceRec.id) ∧
    (∃ v ∈ (deleteUser "1" sampleStore 7).2,
       v.id = aliceRec.id ∧ v.is_deleted = true ∧ v.deleted_at = some 7 ∧
       v.is_active = false) :=
  c4_soft_delete_twice sampleStore aliceRec "1" 7 8 defaultQuery (by decide) (by decide)
    (by decide) (by decide) (by decide)

/-- C5: on an existing non-deleted target, delete rejects an admin with 400
and leaves the row unchanged; otherwise it sets the soft-delete flag, the
deletion timestamp and deactivation, and returns exactly the id, name and
email summary of the deleted record. -/
theorem c5_delete_admin_guard (store : List UserRecord) (idStr : String) (now : Nat)
    (u : UserRecord)
    (hfind : store.find? (idAlivePred (parseIntNat idStr)) = some u) :
    (u.role = "admin" →
       deleteUser idStr store now =
         (sendBadRequestResponse "Cannot delete admin users" [], store)) ∧
    (u.role ≠ "admin" →
       ∃ l₁ l₂, store = l₁ ++ u :: l₂ ∧
         deleteUser idStr store now =
           (sendSuccessResponse "User deleted successfully"
              (.deletedUser ⟨u.id, u.name, u.email⟩) none,
            l₁ ++ ({ u with
              is_deleted := true
              deleted_at := some now
              is_active := false
              updated_at := now } : UserRecord) :: l₂)) := by
  constructor
  · intro hadm
    simp only [deleteUser, hfind]
    rw [if_pos hadm]
  · intro hadm
    obtain ⟨l₁, l₂, hsplit, hrepl, hl₁⟩ :=
      @replaceFirst_of_find? (idAlivePred (parseIntNat idStr))
        (fun v => applyUpdate v (softDeletePatch now) now) store u hfind
    refine ⟨l₁, l₂, hsplit, ?_⟩
    simp only [deleteUser, hfind]
    rw [if_neg hadm, hrepl, applyUpdate_softDelete]

/-- Witness for C5: deleting the stored admin is rejected in place. -/
theorem c5_delete_admin_guard_witness :
    sampleStore.find? (idAlivePred (parseIntNat "2")) = some bobRec ∧
    deleteUser "2" sampleStore 7 =
      (sendBadRequestResponse "Cannot delete admin users" [], sampleStore) :=
  ⟨by decide, (c5_delete_admin_guard sampleStore "2" 7 bobRec (by decide)).1 (by decide)⟩

/-- C6: query validation rejects limits above 100 and defaults page to 1 and
limit to 10; the returned page holds at most limit rows taken after the offset
(page minus 1) times limit; and meta.pagination carries page, limit, total,
pages as the ceiling of total over limit (least cover), hasNext as page below
pages and hasPrev as page above 1. -/
theorem c6_pagination_contract :
    (∀ raw s n, raw.limit = some s → parseJoiInt? s = some n → 100 < n →
       ∃ errs, userQuerySchemaValidate raw = .error errs ∧
         (⟨"limit", "Limit must be at most 100"⟩ : FieldError) ∈ errs) ∧
    (∀ raw q, userQuerySchemaValidate raw = .ok q →
       (raw.page = none → q.page = 1) ∧ (raw.limit = none → q.limit = 10)) ∧
    (∀ q store, (getUsersRows q store).length ≤ q.limit.toNat) ∧
    (∀ q store, (getUsers q store).meta = some
       ⟨⟨q.page, q.limit, getUsersCount q store,
         jsCeilDiv (getUsersCount q store) q.limit.toNat,
         decide (q.page < (jsCeilDiv (getUsersCount q store) q.limit.toNat : Int)),
         decide (1 < q.page)⟩,
        ⟨q.search, q.role, q.sortBy, q.sortOrder⟩⟩) ∧
    (∀ total limit : Nat, 0 < limit →
       total ≤ jsCeilDiv total limit * limit ∧
       ∀ k, total ≤ k * limit → jsCeilDiv total limit ≤ k) := by
  refine ⟨?_, ?_, ?_, ?_, ?_⟩
  · intro raw s n hraw hp hn
    exact queryValidate_limit_max hraw hp hn
  · intro raw q h
    obtain ⟨hp, hl⟩ := queryValidate_components h
    constructor
    · intro hnone
      rw [hnone] at hp
      simp only [validatePage] at hp
      exact (Except.ok.inj hp).symm
    · intro hnone
      rw [hnone] at hl
      simp only [validateLimit] at hl
      exact (Except.ok.inj hl).symm
  · intro q store
    simp only [getUsersRows]
    exact List.length_take_le _ _
  · intro q store
    rfl
  · intro total limit hl
    exact ⟨le_jsCeilDiv_mul total hl, fun k hk => jsCeilDiv_le total k hl hk⟩

/-- Witness for C6: an oversize limit is rejected, absent parameters default,
and the default page of the sample store respects the limit. -/
theorem c6_pagination_contract_witness :
    (∃ errs, userQuerySchemaValidate { emptyRawQuery with limit := some "200" } = .error errs ∧
       (⟨"limit", "Limit must be at most 100"⟩ : FieldError) ∈ errs) ∧
    userQuerySchemaValidate emptyRawQuery = .ok defaultQuery ∧
    defaultQuery.page = 1 ∧ defaultQuery.limit = 10 ∧
    (getUsersRows defaultQuery sampleStore).length ≤ defaultQuery.limit.toNat :=
  ⟨c6_pagination_contract.1 { emptyRawQuery with limit := some "200" } "200" 200 rfl
     (by decide) (by decide),
   by decide,
   (c6_pagination_contract.2.1 emptyRawQuery defaultQuery (by decide)).1 rfl,
   (c6_pagination_contract.2.1 emptyRawQuery defaultQuery (by decide)).2 rfl,
   c6_pagination_contract.2.2.1 defaultQuery sampleStore⟩

/-- C7: for an update of an existing non-deleted target, a body email equal to
the current one skips the uniqueness check and the update proceeds, while a
different body email held by another non-deleted user is rejected with no
field changed. -/
theorem c7_update_email_uniqueness (idStr : String) (body : JObj)
    (store : List UserRecord) (now : Nat) (u : UserRecord)
    (hfind : store.find? (idAlivePred (parseIntNat idStr)) = some u) :
    (∀ e w, lookupStr body "email" = some e → e ≠ u.email →
       w ∈ store → w.email = e → w.id ≠ parseIntNat idStr → w.is_deleted = false →
       updateUser idStr body store now =
         (sendBadRequestResponse "Email already exists" [], store)) ∧
    (lookupStr body "email" = some u.email →
       updateUser idStr body store now =
         (sendSuccessResponse "User updated successfully"
            (.userObj (serializeUser ["password"] (applyUpdate u body now))) none,
          replaceFirst (idAlivePred (parseIntNat idStr))
            (fun v => applyUpdate v body now) store)) := by
  constructor
  · intro e w he hne hw hwe hwid hwd
    have hany : store.any (fun v =>
        decide (v.email = e) && decide (v.id ≠ parseIntNat idStr) && !v.is_deleted) = true :=
      List.any_eq_true.mpr ⟨w, hw, by simp [hwe, hwid, hwd]⟩
    simp only [updateUser, hfind, he]
    rw [if_pos hne, hany]
    simp
  · intro he
    simp only [updateUser, hfind, he]
    rw [if_neg (by simp : ¬u.email ≠ u.email)]
    simp

/-- Witness for C7: an update re-sending the current email proceeds. -/
theorem c7_update_email_uniqueness_witness :
    sampleStore.find? (idAlivePred (parseIntNat "1")) = some aliceRec ∧
    lookupStr [("email", JVal.jstr "alice@example.com")] "email" = some aliceRec.email ∧
    updateUser "1" [("email", JVal.jstr "alice@example.com")] sampleStore 7 =
      (sendSuccessResponse "User updated successfully"
         (.userObj (serializeUser ["password"]
           (applyUpdate aliceRec [("email", JVal.jstr "alice@example.com")] 7))) none,
       replaceFirst (idAlivePred (parseIntNat "1"))
         (fun v => applyUpdate v [("email", JVal.jstr "alice@example.com")] 7) sampleStore) :=
  ⟨by decide, by decide,
   (c7_update_email_uniqueness "1" [("email", JVal.jstr "alice@example.com")] sampleStore 7
     aliceRec (by decide)).2 (by decide)⟩

/-- C8: invalid query, body or params are rejected with a 422 response carrying
a non-empty field-and-message error list before the controller runs, with the
source-specific messages Query validation failed, Validation failed and
Parameter validation failed; an empty update body is rejected with the
at-least-one-field message. -/
theorem c8_validation_rejections :
    (∀ raw store errs, userQuerySchemaValidate raw = .error errs →
       listRoute raw store = sendValidationErrorResponse "Query validation failed" errs ∧
       (listRoute raw store).statusCode = 422 ∧ errs ≠ []) ∧
    (∀ body store now errs, createUserSchemaValidate body = .error errs →
       createRoute body store now =
         (sendValidationErrorResponse "Validation failed" errs, store) ∧
       (createRoute body store now).1.statusCode = 422 ∧ errs ≠ []) ∧
    (∀ id body store now errs, userParamsSchemaValidate id = .error errs →
       updateRoute id body store now =
         (sendValidationErrorResponse "Parameter validation failed" errs, store) ∧
       (updateRoute id body store now).1.statusCode = 422) ∧
    (∀ id vid body store now errs, userParamsSchemaValidate id = .ok vid →
       updateUserSchemaValidate body = .error errs →
       updateRoute id body store now =
         (sendValidationErrorResponse "Validation failed" errs, store) ∧
       (updateRoute id body store now).1.statusCode = 422 ∧ errs ≠ []) ∧
    (∀ id vid store now, userParamsSchemaValidate id = .ok vid →
       updateRoute id [] store now =
         (sendValidationErrorResponse "Validation failed"
            [⟨"", "At least one field must be provided for update"⟩], store)) := by
  refine ⟨?_, ?_, ?_, ?_, ?_⟩
  · intro raw store errs h
    have hr : listRoute raw store =
        sendValidationErrorResponse "Query validation failed" errs := by
      simp only [listRoute, h]
    exact ⟨hr, by rw [hr]; rfl, queryValidate_error_ne_nil h⟩
  · intro body store now errs h
    have hr : createRoute body store now =
        (sendValidationErrorResponse "Validation failed" errs, store) := by
      simp only [createRoute, h]
    exact ⟨hr, by rw [hr]; rfl, createValidate_error_ne_nil h⟩
  · intro id body store now errs h
    have hr : updateRoute id body store now =
        (sendValidationErrorResponse "Parameter validation failed" errs, store) := by
      simp only [updateRoute, h]
    exact ⟨hr, by rw [hr]; rfl⟩
  · intro id vid body store now errs hp h
    have hr : updateRoute id body store now =
        (sendValidationErrorResponse "Validation failed" errs, store) := by
      simp only [updateRoute, hp, h]
    exact ⟨hr, by rw [hr]; rfl, updateValidate_error_ne_nil h⟩
  · intro id vid store now hp
    have hempty : updateUserSchemaValidate [] =
        .error [⟨"", "At least one field must be provided for update"⟩] := by decide
    simp only [updateRoute, hp, hempty]

/-- Witness for C8: the empty update body on a valid id parameter. -/
theorem c8_validation_rejections_witness :
    userParamsSchemaValidate "1" = .ok "1" ∧
    updateRoute "1" [] sampleStore 7 =
      (sendValidationErrorResponse "Validation failed"
         [⟨"", "At least one field must be provided for update"⟩], sampleStore) :=
  ⟨by decide, c8_validation_rejections.2.2.2.2 "1" "1" sampleStore 7 (by decide)⟩

/-- C9: the create schema emits a supplied date of birth under the camel-case
dateOfBirth key and strips the snake-case date_of_birth key, while the create
controller reads the snake-case key, so every record created from a valid body
that supplied a date of birth stores a null date of birth. -/
theorem c9_date_of_birth_never_persisted (body sanitized : JObj) (v : JVal)
    (hval : createUserSchemaValidate body = .ok sanitized)
    (_hdob : List.lookup "dateOfBirth" sanitized = some v) :
    List.lookup "date_of_birth" sanitized = none ∧
    (∀ store now, (createRoute body store now).2 = store ∨
       ∃ newU, (createRoute body store now).2 = store ++ [newU] ∧
         newU.date_of_birth = none) := by
  have hnone := createSanitized_dob_none hval
  refine ⟨hnone, ?_⟩
  intro store now
  simp only [createRoute, hval]
  by_cases hd : store.any (fun u =>
      decide (u.email = (lookupStr sanitized "email").getD "") && !u.is_deleted) = true
  · left
    simp [createUser, hd]
  · right
    simp only [createUser, hd, Bool.false_eq_true, if_false]
    refine ⟨_, rfl, ?_⟩
    simp [lookupStr, hnone]

/-- Witness for C9: a valid create body carrying a camel-case date of birth. -/
theorem c9_date_of_birth_never_persisted_witness :
    createUserSchemaValidate
      [("name", JVal.jstr "Test User"), ("email", JVal.jstr "test@example.com"),
       ("password", JVal.jstr "TestPass123!"), ("dateOfBirth", JVal.jstr "1990-01-01")] =
      .ok [("name", JVal.jstr "Test User"), ("email", JVal.jstr "test@example.com"),
       ("password", JVal.jstr "TestPass123!"), ("role", JVal.jstr "user"),
       ("dateOfBirth", JVal.jstr "1990-01-01")] ∧
    List.lookup "date_of_birth"
      [("name", JVal.jstr "Test User"), ("email", JVal.jstr "test@example.com"),
       ("password", JVal.jstr "TestPass123!"), ("role", JVal.jstr "user"),
       ("dateOfBirth", JVal.jstr "1990-01-01")] = none :=
  ⟨by decide,
   (c9_date_of_birth_never_persisted
     [("name", JVal.jstr "Test User"), ("email", JVal.jstr "test@example.com"),
      ("password", JVal.jstr "TestPass123!"), ("dateOfBirth", JVal.jstr "1990-01-01")]
     [("name", JVal.jstr "Test User"), ("email", JVal.jstr "test@example.com"),
      ("password", JVal.jstr "TestPass123!"), ("role", JVal.jstr "user"),
      ("dateOfBirth", JVal.jstr "1990-01-01")]
     (JVal.jstr "1990-01-01") (by decide) (by decide)).1⟩

/-- C10: the update schema carries neither role nor password and strips
unknown keys, so an update call never changes any stored role or password
column. -/
theorem c10_update_preserves_role_password :
    (∀ body sanitized, updateUserSchemaValidate body = .ok sanitized →
       List.lookup "role" sanitized = none ∧ List.lookup "password" sanitized = none) ∧
    (∀ id body store now,
       ((updateRoute id body store now).2.map (fun v => v.role) =
         store.map (fun v => v.role)) ∧
       ((updateRoute id body store now).2.map (fun v => v.password) =
         store.map (fun v => v.password))) := by
  constructor
  · intro body sanitized h
    exact updateSanitized_no_role_password h
  · intro id body store now
    cases hp : userParamsSchemaValidate id with
    | error errs => simp [updateRoute, hp]
    | ok vid =>
        cases hb : updateUserSchemaValidate body with
        | error errs => simp [updateRoute, hp, hb]
        | ok sanitized =>
            obtain ⟨hrole, hpass⟩ := updateSanitized_no_role_password hb
            simp only [updateRoute, hp, hb]
            cases hf : store.find? (idAlivePred (parseIntNat vid)) with
            | none => simp [updateUser, hf]
            | some u =>
                simp only [updateUser, hf]
                split
                · exact ⟨rfl, rfl⟩
                · constructor
                  · exact replaceFirst_map_eq (fun v => v.role)
                      (fun v => by simp [applyUpdate, lookupStr, hrole]) store
                  · exact replaceFirst_map_eq (fun v => v.password)
                      (fun v => by simp [applyUpdate, lookupStr, hpass]) store

/-- Witness for C10: a name-only update body keeps role and password keys out. -/
theorem c10_update_preserves_role_password_witness :
    updateUserSchemaValidate [("name", JVal.jstr "New Name")] =
      .ok [("name", JVal.jstr "New Name")] ∧
    List.lookup "role" [("name", JVal.jstr "New Name")] = none ∧
    List.lookup "password" [("name", JVal.jstr "New Name")] = none ∧
    (updateRoute "1" [("name", JVal.jstr "New Name")] sampleStore 7).2.map
      (fun v => v.role) = sampleStore.map (fun v => v.role) :=
  ⟨by decide,
   (c10_update_preserves_role_password.1 [("name", JVal.jstr "New Name")]
     [("name", JVal.jstr "New Name")] (by decide)).1,
   (c10_update_preserves_role_password.1 [("name", JVal.jstr "New Name")]
     [("name", JVal.jstr "New Name")] (by decide)).2,
   (c10_update_preserves_role_password.2 "1" [("name", JVal.jstr "New Name")]
     sampleStore 7).1⟩
